import Mathlib

/-!
A verification development for the MusicBeeWrapped test-data generator
(`generate_test_data.py`).  The generator builds a year of synthetic play
events by walking a simulated calendar and sampling plays, then derives a
year-summary document from the play history.

Modelling conventions:
* Python floats appearing in the script (0.7, 0.8, 0.9, 0.95, 1.2, ...) are
  modelled as exact rationals.  For the one place where float rounding could
  matter, `int(track_duration_seconds * 0.8)`, the double-precision result
  equals `4 * s / 5` (natural floor division) for every `s ≤ 360`, which
  covers the whole track-pool range (durations 120000..360000 ms, i.e.
  120..360 seconds); likewise `int(s * 0.5) = s / 2` exactly, and
  `TOTAL_PLAYS * 0.8 = 9600.0` exactly.
* Calls to the random module are modelled by oracle functions supplied as
  parameters: `random.random()` draws are rationals, `random.randint(a, b)`
  draws are supplied by a function of the two bounds.  Theorems quantify over
  all oracles (constrained to the ranges the library guarantees), so every
  interleaving of the script's actual draws is covered.
* Timestamps are minutes since `start_date = datetime(2024, 1, 1)`; the
  simulated clock only ever gains whole minutes, and `2024-12-31 23:59:59`
  corresponds to minute 527039 plus 59 seconds, so the loop guard
  `current_date <= end_date` is exactly `dateMin ≤ 527039`.
-/

namespace MusicBeeWrapped

/-- Constant `TOTAL_PLAYS = 12000` (line 13 of the script). -/
def TOTAL_PLAYS : ℕ := 12000

/-- Constant `YEAR = 2024` (line 16 of the script). -/
def YEAR : ℕ := 2024

/-- Minute index of the last loop-admissible clock value: `end_date =
datetime(YEAR, 12, 31, 23, 59, 59)` is minute `366 * 1440 - 1 = 527039`
(plus 59 seconds) after `start_date = datetime(YEAR, 1, 1)`; 2024 is a leap
year. -/
def endMin : ℕ := 527039

/-- Minute index of `start_date = datetime(YEAR, 1, 1)`. -/
def startMin : ℕ := 0

/-!
## `generate_realistic_play_duration` (lines 106-118)

The function draws `random.random()` up to twice: once for the 70% branch
test, and (only when that fails) a second, fresh draw for the `< 0.9` test.
`durationTier` records which of the three `randint` calls is reached:
tier 0 is the `[80%,100%]` branch, tier 1 the `[50%,80%]` branch, tier 2 the
`[30s,50%]` branch.
-/

/-- Branch selection of `generate_realistic_play_duration`: `r1` is the first
`random.random()` draw (line 111), `r2` the second draw made inside the
`elif` (line 114). -/
def durationTier (r1 r2 : ℚ) : ℕ :=
  if r1 < 7/10 then 0
  else if r2 < 9/10 then 1
  else 2

/-- Function `generate_realistic_play_duration(track_duration_ms)` (lines
106-118).
`ri lo hi` models `random.randint(lo, hi)`. -/
def generate_realistic_play_duration (r1 r2 : ℚ) (ri : ℕ → ℕ → ℕ)
    (track_duration_ms : ℕ) : ℕ :=
  let track_duration_seconds := track_duration_ms / 1000
  match durationTier r1 r2 with
  | 0 => ri (4 * track_duration_seconds / 5) track_duration_seconds
  | 1 => ri (track_duration_seconds / 2) (4 * track_duration_seconds / 5)
  | _ => ri 30 (track_duration_seconds / 2)

/-- Number of pairs `(k1, k2)` on the uniform 10×10 grid of draws
`(k1/10, k2/10)` for which the sampler reaches tier `t`.  Both thresholds of
the sampler (0.7 and 0.9) are multiples of 1/10, so the grid frequencies
coincide with the exact probabilities of the tiers under independent uniform
draws on `[0,1)`. -/
def tierGridCount (t : ℕ) : ℕ :=
  (((List.range 10).product (List.range 10)).filter
    (fun p => durationTier ((p.1 : ℚ) / 10) ((p.2 : ℚ) / 10) == t)).length


/-!
## The calendar walk of `create_play_history_xml` (lines 133-284)

The loop (lines 172-279) advances a simulated clock across the year in
5-60 minute increments and emits at most one play per iteration.  The state
records the Python loop variables: `current_plays`, `current_date` (as
minutes after `start_date`), `base_probability` (whose value survives from
one iteration to the next only to be unconditionally overwritten at line
192), and the sequence of `PlayedAt` stamps of the `TrackPlay` elements
appended so far.  The per-play track metadata (track choice, file path,
playlist, listening mode) does not influence the loop control flow, the play
count, or the timestamps, so the emitted list keeps only the stamps.
`randO n` is the `random.random()` decision draw of iteration `n` (line
203); `advO n` is the `random.randint(5, 60)` advance draw (line 272).
-/

/-- Table `listening_patterns` (lines 123-130) in dict insertion order:
`(start_hour, end_hour, frequency_multiplier)`.  The preferred-genre lists
only affect track choice, not the loop control flow, and are omitted. -/
def listening_patterns : List (ℕ × ℕ × ℚ) :=
  [(7, 9, 6/5), (9, 17, 4/5), (18, 22, 1), (20, 24, 3/2), (22, 2, 7/10),
   (6, 8, 13/10)]

/-- Pattern lookup (lines 178-188): the first window containing the hour
wins (`break`); windows with `start_hour > end_hour` wrap past midnight. -/
def patternLookup (hour : ℕ) : Option ℚ :=
  listening_patterns.findSome? fun w =>
    if w.1 ≤ w.2.1 then
      if w.1 ≤ hour ∧ hour < w.2.1 then some w.2.2 else none
    else
      if w.1 ≤ hour ∨ hour < w.2.1 then some w.2.2 else none

/-- Hour `current_date.hour` for a clock value of `m` whole minutes past
`start_date` (midnight). -/
def hourOf (m : ℕ) : ℕ := m % 1440 / 60

/-- Weekday `current_date.weekday()` (Monday = 0): January 1st 2024 is a
Monday. -/
def weekdayOf (m : ℕ) : ℕ := m / 1440 % 7

/-- Value `(end_date - current_date).days` (line 276): the difference is
`(endMin - m)` minutes plus 59 seconds, floor-divided (Python semantics,
also for negative differences) by 86400 seconds. -/
def daysRemaining (m : ℕ) : ℤ := (((endMin : ℤ) - m) * 60 + 59).fdiv 86400

/-- The probability used by the play/no-play decision (lines 190-203):
`base_probability` is recomputed from the constant `0.8`, multiplied by the
matched pattern's frequency multiplier and a weekend boost, and clamped to
at most 1. -/
def emissionProb (hour weekday : ℕ) : ℚ :=
  let base : ℚ := 4/5
  let base := match patternLookup hour with
    | some m => base * m
    | none => base
  let base := if 5 ≤ weekday then base * (6/5) else base
  min base 1

/-- The Python loop variables at the top of an iteration of the walk. -/
structure WalkState where
  plays : ℕ
  dateMin : ℕ
  baseProb : ℚ
  emitted : List ℕ
  iter : ℕ
deriving DecidableEq

/-- One iteration of the loop body (lines 172-279), to be run only when the
guard `current_plays < TOTAL_PLAYS and current_date <= end_date` holds.
Note that the decision (line 203) uses the probability recomputed at lines
190-201 — the `base_probability = 0.95` safety-check assignment (line 279)
happens after the time advance, is stored for the next iteration, and is
overwritten there before any use. -/
def walkStep (randO : ℕ → ℚ) (advO : ℕ → ℕ) (s : WalkState) : WalkState :=
  let p := emissionProb (hourOf s.dateMin) (weekdayOf s.dateMin)
  let emit := randO s.iter < p
  let plays' := if emit then s.plays + 1 else s.plays
  let emitted' := if emit then s.emitted ++ [s.dateMin] else s.emitted
  let date' := s.dateMin + advO s.iter
  let base' :=
    if daysRemaining date' < 30 ∧ plays' < TOTAL_PLAYS * 4 / 5 then (19/20 : ℚ)
    else p
  { plays := plays', dateMin := date', baseProb := base', emitted := emitted',
    iter := s.iter + 1 }

/-- The guard of the `while` loop (line 172). -/
def walkGuard (s : WalkState) : Prop :=
  s.plays < TOTAL_PLAYS ∧ s.dateMin ≤ endMin

instance (s : WalkState) : Decidable (walkGuard s) := by
  unfold walkGuard; infer_instance

/-- The `while` loop (lines 172-279) with an explicit fuel bound on the
number of iterations; `walk` returns the state unchanged once the guard
fails. -/
def walk (randO : ℕ → ℚ) (advO : ℕ → ℕ) : ℕ → WalkState → WalkState
  | 0, s => s
  | fuel + 1, s =>
    if walkGuard s then walk randO advO fuel (walkStep randO advO s) else s

/-- The state entering the loop (lines 167-168): no plays, clock at
`start_date`; `base_probability` is not yet bound in the Python scope and its
initial value is irrelevant (the first iteration overwrites it at line 192),
so we pick the constant `0.8` from that line. -/
def initState : WalkState :=
  { plays := 0, dateMin := startMin, baseProb := 4/5, emitted := [], iter := 0 }

/-- Loop invariant carrying everything claims C1, C2 and C9 need. -/
def WalkInv (s : WalkState) : Prop :=
  s.plays ≤ TOTAL_PLAYS ∧ s.emitted.length = s.plays ∧
    (∀ t ∈ s.emitted, t ≤ s.dateMin) ∧ s.emitted.Pairwise (· ≤ ·) ∧
    (∀ t ∈ s.emitted, t ≤ endMin)


/-- The loop's stopping condition: the target play count has been reached or
the simulated clock has passed the year's end, whichever came first. -/
def Terminated (s : WalkState) : Prop := ¬ walkGuard s


/-!
## `create_year_metadata_xml` (lines 286-364)

The aggregator walks the `TrackPlay` elements of the play-history document,
building insertion-ordered count dictionaries per artist, per
`"artist - title"` key, and per (truthy) genre, summing played durations and
tracking the earliest and latest timestamp, then takes
`max(dict.items(), key=...)[0]` for each dictionary.  Python dicts iterate
in insertion order and `max` keeps the first item attaining the maximum, so
ties go to the value first encountered in document order.  A `TrackPlay`
element is modelled by the fields the aggregator reads; the timestamp is the
minute stamp the generator wrote (the string round-trip through `PlayedAt`
is injective and order-preserving on the generator's clock values).
-/

/-- The fields of a `TrackPlay` element that `create_year_metadata_xml`
reads (lines 303-307). -/
structure TrackPlayRec where
  artist : String
  title : String
  genre : String
  playDuration : ℕ
  playedAt : ℕ
deriving DecidableEq

/-- A Python count dict: association list in key-insertion order. -/
abbrev CountDict := List (String × ℕ)

/-- One `if key in d: d[key] += 1 else: d[key] = 1` update (e.g. lines
321-324). -/
def bumpCount (d : CountDict) (k : String) : CountDict :=
  if d.any (fun e => e.1 == k) then
    d.map (fun e => if e.1 == k then (e.1, e.2 + 1) else e)
  else d ++ [(k, 1)]

/-- The count dict accumulated over a list of key values. -/
def buildCounts (vals : List String) : CountDict := vals.foldl bumpCount []

/-- The scan step of CPython's `max` with `key=lambda kv: kv[1]`: the current
best is replaced only on a strictly greater key, so the first maximal item
wins. -/
def pickMax (best x : String × ℕ) : String × ℕ :=
  if x.2 > best.2 then x else best

/-- Computation `max(d.items(), key=lambda kv: kv[1])[0]` (lines 344-346)
over a dict in
insertion order; on an empty dict there is no maximum (Python raises, which
the script reaches only for the genre dict, guarded by `if genres else ""`). -/
def maxItem : CountDict → Option String
  | [] => none
  | e :: es => some ((es.foldl pickMax e).1)

/-- The per-artist dict (lines 320-324). -/
def artistCounts (plays : List TrackPlayRec) : CountDict :=
  buildCounts (plays.map (fun p => p.artist))

/-- The per-track dict keyed by `f"{artist} - {title}"` (lines 326-331). -/
def trackCounts (plays : List TrackPlayRec) : CountDict :=
  buildCounts (plays.map (fun p => p.artist ++ " - " ++ p.title))

/-- The per-genre dict (lines 333-338): `if genre:` skips falsy (empty)
genres. -/
def genreCounts (plays : List TrackPlayRec) : CountDict :=
  buildCounts ((plays.map (fun p => p.genre)).filter (fun g => !(g == "")))

/-- Accumulator `first_play` (lines 315-316): earliest timestamp. -/
def firstPlayOf (plays : List TrackPlayRec) : Option ℕ :=
  plays.foldl
    (fun acc p =>
      match acc with
      | none => some p.playedAt
      | some m => if p.playedAt < m then some p.playedAt else some m)
    none

/-- Accumulator `last_play` (lines 317-318): latest timestamp. -/
def lastPlayOf (plays : List TrackPlayRec) : Option ℕ :=
  plays.foldl
    (fun acc p =>
      match acc with
      | none => some p.playedAt
      | some m => if p.playedAt > m then some p.playedAt else some m)
    none

/-- The year-summary fields computed by `create_year_metadata_xml` (lines
349-362), minus the wall-clock `LastUpdated` stamp. -/
structure YearMetadata where
  year : ℕ
  totalPlays : ℕ
  totalMinutes : ℕ
  firstPlay : Option ℕ
  lastPlay : Option ℕ
  topArtist : String
  topTrack : String
  topGenre : String
deriving DecidableEq

/-- Function `create_year_metadata_xml(play_history_root)` (lines 286-364):
returns
`None` for an empty `Plays` collection (lines 290-291), otherwise the
aggregate.  For a non-empty collection the artist and track dicts are
non-empty, so their `max` cannot raise; the `getD ""` default is never
taken for them, and for the genre dict it is exactly the
`if genres else ""` fallback of line 346. -/
def create_year_metadata_xml (plays : List TrackPlayRec) : Option YearMetadata :=
  if plays.length = 0 then none
  else
    some
      { year := YEAR
        totalPlays := plays.length
        totalMinutes := (plays.map (fun p => p.playDuration)).sum / 60
        firstPlay := firstPlayOf plays
        lastPlay := lastPlayOf plays
        topArtist := (maxItem (artistCounts plays)).getD ""
        topTrack := (maxItem (trackCounts plays)).getD ""
        topGenre := (maxItem (genreCounts plays)).getD "" }


/-!
## C6: the top fields are first-encountered modes

`IsFirstMode vals v` renders the spec's description of the top fields: `v`
is a most frequent value of `vals`, and among equally frequent values it is
the one first encountered (smallest first-occurrence index).
-/

/-- Modelled from the spec: `v` is the arithmetic mode of `vals`, ties
resolved in favor of the value first encountered. -/
def IsFirstMode (vals : List String) (v : String) : Prop :=
  v ∈ vals ∧ (∀ w ∈ vals, vals.count w ≤ vals.count v) ∧
    (∀ w ∈ vals, vals.count w = vals.count v →
      vals.indexOf v ≤ vals.indexOf w)

instance (vals : List String) (v : String) : Decidable (IsFirstMode vals v) := by
  unfold IsFirstMode; infer_instance

/-- Invariant of the count dict built over `vals`: entries carry the exact
occurrence counts, keys are exactly the values seen, and entries are ordered
by first occurrence. -/
def DictInv (vals : List String) (d : CountDict) : Prop :=
  (∀ e ∈ d, e.2 = vals.count e.1) ∧
    (∀ v, v ∈ vals ↔ v ∈ d.map Prod.fst) ∧
    d.Pairwise (fun a b => vals.indexOf a.1 < vals.indexOf b.1)


/-- C3: for every track whose nominal duration lies in the pool's range
(120000..360000 ms), and for any random draws, the sampled play duration `d`
satisfies `0 ≤ d ≤ track_duration_ms / 1000`, and `30 ≤ d` whenever the low
tier is taken. -/
theorem c3_play_duration_bounds (r1 r2 : ℚ) (ri : ℕ → ℕ → ℕ) (ms : ℕ)
    (hlo : 120000 ≤ ms) (hhi : ms ≤ 360000)
    (hri : ∀ lo hi, lo ≤ hi → lo ≤ ri lo hi ∧ ri lo hi ≤ hi) :
    generate_realistic_play_duration r1 r2 ri ms ≤ ms / 1000 ∧
      (durationTier r1 r2 = 2 →
        30 ≤ generate_realistic_play_duration r1 r2 ri ms) := by
  have hs : 120 ≤ ms / 1000 := by omega
  unfold generate_realistic_play_duration
  rcases ht : durationTier r1 r2 with _ | _ | t
  · refine ⟨?_, by simp⟩
    have h := hri (4 * (ms / 1000) / 5) (ms / 1000) (by omega)
    simpa using h.2
  · refine ⟨?_, by simp⟩
    have h := hri ((ms / 1000) / 2) (4 * (ms / 1000) / 5) (by omega)
    have : 4 * (ms / 1000) / 5 ≤ ms / 1000 := by omega
    simp only []
    omega
  · have h := hri 30 ((ms / 1000) / 2) (by omega)
    have : (ms / 1000) / 2 ≤ ms / 1000 := by omega
    exact ⟨by simp only []; omega, fun _ => by simp only []; omega⟩

/-- Witness for C3 at a concrete input. -/
theorem c3_witness :
    generate_realistic_play_duration 0 0 (fun lo _ => lo) 120000 ≤ 120000 / 1000 ∧
      (durationTier 0 0 = 2 →
        30 ≤ generate_realistic_play_duration 0 0 (fun lo _ => lo) 120000) :=
  c3_play_duration_bounds 0 0 (fun lo _ => lo) 120000 (by decide) (by decide)
    (fun lo hi h => ⟨Nat.le_refl lo, h⟩)

/-- On grid points `k/10` the tier tests reduce to the integer tests
`k1 < 7` and `k2 < 9`. -/
lemma durationTier_grid (k1 k2 : ℕ) :
    durationTier ((k1 : ℚ) / 10) ((k2 : ℚ) / 10) =
      (if k1 < 7 then 0 else if k2 < 9 then 1 else 2) := by
  have h10 : (0 : ℚ) < 10 := by norm_num
  have h1 : ((k1 : ℚ) / 10 < 7 / 10) ↔ (k1 < 7) := by
    rw [div_lt_div_iff_of_pos_right h10]
    exact_mod_cast Iff.rfl
  have h2 : ((k2 : ℚ) / 10 < 9 / 10) ↔ (k2 < 9) := by
    rw [div_lt_div_iff_of_pos_right h10]
    exact_mod_cast Iff.rfl
  simp only [durationTier, h1, h2]

/-- The grid count computed with the integer tests instead. -/
lemma tierGridCount_eq (t : ℕ) :
    tierGridCount t =
      (((List.range 10).product (List.range 10)).filter
        (fun p => (if p.1 < 7 then 0 else if p.2 < 9 then 1 else 2) == t)).length := by
  unfold tierGridCount
  congr 1
  apply List.filter_congr
  intro p _
  rw [durationTier_grid]

/-- C4 (refuting the stated 70%/20%/10% split): on the exact uniform 10×10
grid of independent draws, the middle tier is reached 27 times out of 100 and
the low tier 3 times out of 100 — i.e. with probabilities 27% and 3%, not
the 20% and 10% stated — because the `elif` makes a fresh second draw instead
of reusing the first one. -/
theorem c4_tier_distribution :
    tierGridCount 0 = 70 ∧ tierGridCount 1 = 27 ∧ tierGridCount 2 = 3 ∧
      ¬(tierGridCount 1 = 20 ∧ tierGridCount 2 = 10) := by
  simp only [tierGridCount_eq]
  refine ⟨by decide, by decide, by decide, by decide⟩


lemma walkStep_inv {s : WalkState} (hg : walkGuard s) (h : WalkInv s) :
    WalkInv (walkStep randO advO s) := by
  obtain ⟨h1, h2, h3, h4, h5⟩ := h
  obtain ⟨hg1, hg2⟩ := hg
  unfold walkStep
  by_cases he : randO s.iter < emissionProb (hourOf s.dateMin) (weekdayOf s.dateMin)
  · refine ⟨?_, ?_, ?_, ?_, ?_⟩ <;> simp only [he, if_pos, if_true]
    · exact hg1
    · simpa using h2
    · intro t ht
      rcases List.mem_append.mp ht with ht | ht
      · exact le_trans (h3 t ht) (Nat.le_add_right _ _)
      · simp only [List.mem_singleton] at ht
        omega
    · refine List.pairwise_append.mpr ⟨h4, List.pairwise_singleton _ _, ?_⟩
      intro a ha b hb
      simp only [List.mem_singleton] at hb
      exact hb ▸ h3 a ha
    · intro t ht
      rcases List.mem_append.mp ht with ht | ht
      · exact h5 t ht
      · simp only [List.mem_singleton] at ht
        omega
  · refine ⟨?_, ?_, ?_, ?_, ?_⟩ <;> simp only [he, if_neg, if_false]
    · omega
    · exact h2
    · exact fun t ht => le_trans (h3 t ht) (Nat.le_add_right _ _)
    · exact h4
    · exact h5

lemma walk_inv (randO : ℕ → ℚ) (advO : ℕ → ℕ) (fuel : ℕ) (s : WalkState)
    (h : WalkInv s) : WalkInv (walk randO advO fuel s) := by
  induction fuel generalizing s with
  | zero => exact h
  | succ n ih =>
    unfold walk
    by_cases hg : walkGuard s
    · rw [if_pos hg]
      exact ih _ (walkStep_inv hg h)
    · rwa [if_neg hg]

lemma walkInv_init : WalkInv initState := by
  refine ⟨by simp [initState, TOTAL_PLAYS], by simp [initState], ?_, ?_, ?_⟩ <;>
    simp [initState]

/-- C1: however the random draws come out and however long the loop is run,
the walk emits at most `TOTAL_PLAYS` play events (the guard stops emission
once the count reaches the target, and each tick emits at most one play). -/
theorem c1_play_count_bounded (randO : ℕ → ℚ) (advO : ℕ → ℕ) (fuel : ℕ) :
    ((walk randO advO fuel initState).emitted).length ≤ TOTAL_PLAYS := by
  obtain ⟨h1, h2, -⟩ := walk_inv randO advO fuel initState walkInv_init
  omega

/-- C2: every emitted play is stamped with a clock value inside the target
year: at or after `start_date` (minute 0) and at or before `end_date`
(minute `endMin`, i.e. 2024-12-31 23:59). -/
theorem c2_timestamps_in_year (randO : ℕ → ℚ) (advO : ℕ → ℕ) (fuel : ℕ)
    (t : ℕ) (ht : t ∈ (walk randO advO fuel initState).emitted) :
    startMin ≤ t ∧ t ≤ endMin := by
  obtain ⟨-, -, -, -, h5⟩ := walk_inv randO advO fuel initState walkInv_init
  exact ⟨Nat.zero_le t, h5 t ht⟩

/-- Witness for C2: with decision draws fixed at 0 and 5-minute advances the
first iteration emits a play stamped at minute 0. -/
theorem c2_witness :
    0 ∈ (walk (fun _ => 0) (fun _ => 5) 1 initState).emitted ∧
      startMin ≤ 0 ∧ (0 : ℕ) ≤ endMin := by
  have hmem : 0 ∈ (walk (fun _ => 0) (fun _ => 5) 1 initState).emitted := by
    norm_num [walk, walkGuard, initState, walkStep, TOTAL_PLAYS, endMin,
      startMin, emissionProb, patternLookup, listening_patterns, hourOf,
      weekdayOf, min_def]
  exact ⟨hmem, c2_timestamps_in_year (fun _ => 0) (fun _ => 5) 1 0 hmem⟩

/-- C9: the emitted plays appear in emission order — consecutive `PlayedAt`
stamps are non-decreasing, because the simulated clock never moves
backwards. -/
theorem c9_timestamps_monotone (randO : ℕ → ℚ) (advO : ℕ → ℕ) (fuel : ℕ) :
    List.Chain' (· ≤ ·) (walk randO advO fuel initState).emitted := by
  obtain ⟨-, -, -, h4, -⟩ := walk_inv randO advO fuel initState walkInv_init
  exact h4.chain'


lemma walk_terminates_of_fuel (randO : ℕ → ℚ) (advO : ℕ → ℕ)
    (hadv : ∀ n, 5 ≤ advO n) :
    ∀ fuel s, endMin < s.dateMin + 5 * fuel →
      Terminated (walk randO advO fuel s) := by
  intro fuel
  induction fuel with
  | zero =>
    intro s hs
    show Terminated s
    intro hg
    obtain ⟨-, h2⟩ := hg
    omega
  | succ n ih =>
    intro s hs
    unfold walk
    by_cases hg : walkGuard s
    · rw [if_pos hg]
      apply ih
      have h5 : 5 ≤ advO s.iter := hadv s.iter
      show endMin < (walkStep randO advO s).dateMin + 5 * n
      have hdate : (walkStep randO advO s).dateMin = s.dateMin + advO s.iter := rfl
      omega
    · rwa [if_neg hg]

/-- C10: as long as every `randint(5, 60)` advance draw is at least 5
minutes (guaranteed by the library), the walk has stopped after at most
105408 iterations — each tick moves the clock at least 5 minutes, and the
guard fails as soon as the play count reaches `TOTAL_PLAYS` or the clock
passes `end_date`, whichever comes first. -/
theorem c10_walk_terminates (randO : ℕ → ℚ) (advO : ℕ → ℕ)
    (hadv : ∀ n, 5 ≤ advO n) :
    Terminated (walk randO advO 105408 initState) := by
  apply walk_terminates_of_fuel randO advO hadv
  norm_num [initState, startMin, endMin]

/-- Witness for C10 at concrete oracles. -/
theorem c10_witness :
    Terminated (walk (fun _ => 1) (fun _ => 5) 105408 initState) :=
  c10_walk_terminates (fun _ => 1) (fun _ => 5) (fun _ => Nat.le_refl 5)

set_option maxHeartbeats 1600000 in
/-- C5 (refuting the forced 0.95): the `base_probability = 0.95` assignment
of the late-run safety check (lines 275-279) is dead.  The step function is
insensitive to the `base_probability` value stored in the state — line 192
recomputes it from `0.8` before the next decision — and the probability the
decision actually uses is `emissionProb`, which never equals 0.95 for any
hour and weekday. -/
theorem c5_safety_check_dead (randO : ℕ → ℚ) (advO : ℕ → ℕ) (s : WalkState)
    (q : ℚ) (h w : ℕ) (hh : h < 24) (hw : w < 7) :
    walkStep randO advO { s with baseProb := q } = walkStep randO advO s ∧
      emissionProb h w ≠ 19/20 := by
  refine ⟨rfl, ?_⟩
  by_cases hw5 : 5 ≤ w <;> interval_cases h <;>
    norm_num [emissionProb, patternLookup, listening_patterns, hw5, min_def]

/-- Witness for C5: a concrete state in the late-run regime (clock at
2024-12-05, 26 days remaining, zero plays) and the work-hours decision slot
(noon on a Monday). -/
theorem c5_witness :
    walkStep (fun _ => 0) (fun _ => 5)
        { initState with baseProb := 19/20 } =
      walkStep (fun _ => 0) (fun _ => 5) initState ∧
      emissionProb 12 0 ≠ 19/20 :=
  c5_safety_check_dead (fun _ => 0) (fun _ => 5) initState (19/20) 12 0
    (by norm_num) (by norm_num)


/-- C7: the `TotalPlays` field of the derived summary equals the number of
`TrackPlay` elements of the play-history document it was derived from. -/
theorem c7_total_plays (plays : List TrackPlayRec) (m : YearMetadata)
    (hm : create_year_metadata_xml plays = some m) :
    m.totalPlays = plays.length := by
  unfold create_year_metadata_xml at hm
  split at hm
  · exact absurd hm (by simp)
  · cases Option.some.inj hm
    rfl

/-- Witness for C7 at a one-play document. -/
theorem c7_witness :
    ({ year := YEAR, totalPlays := 1, totalMinutes := 0, firstPlay := some 5,
       lastPlay := some 5, topArtist := "A", topTrack := "A - T",
       topGenre := "G" } : YearMetadata).totalPlays =
      [({ artist := "A", title := "T", genre := "G", playDuration := 30,
          playedAt := 5 } : TrackPlayRec)].length :=
  c7_total_plays
    [{ artist := "A", title := "T", genre := "G", playDuration := 30,
       playedAt := 5 }]
    { year := YEAR, totalPlays := 1, totalMinutes := 0, firstPlay := some 5,
      lastPlay := some 5, topArtist := "A", topTrack := "A - T",
      topGenre := "G" }
    (by decide)

/-- C8: the aggregator signals an empty play sequence as an absence — it
returns `None` exactly when the document holds no plays, and produces a
summary for every non-empty sequence (so `main` writes no summary document
precisely in the empty case, lines 394-396). -/
theorem c8_empty_means_none (plays : List TrackPlayRec) :
    create_year_metadata_xml plays = none ↔ plays = [] := by
  unfold create_year_metadata_xml
  split
  · simp_all [List.length_eq_zero]
  · simp_all [List.length_eq_zero]


lemma buildCounts_concat (vals : List String) (a : String) :
    buildCounts (vals ++ [a]) = bumpCount (buildCounts vals) a := by
  unfold buildCounts
  rw [List.foldl_append]
  rfl

lemma dictInv_buildCounts (vals : List String) :
    DictInv vals (buildCounts vals) := by
  induction vals using List.reverseRecOn with
  | nil => exact ⟨by simp [buildCounts], by simp [buildCounts], by simp [buildCounts]⟩
  | append_singleton l a ih =>
    obtain ⟨ih1, ih2, ih3⟩ := ih
    rw [buildCounts_concat]
    unfold bumpCount
    have hkey : ∀ e, e ∈ buildCounts l → e.1 ∈ l := by
      intro e he
      exact (ih2 e.1).mpr (List.mem_map.mpr ⟨e, he, rfl⟩)
    by_cases hmem : (buildCounts l).any (fun e => e.1 == a) = true
    · -- the key is already present: counts are bumped in place
      rw [if_pos hmem]
      obtain ⟨ea, hea, heaeq⟩ := List.any_eq_true.mp hmem
      have ha : a ∈ l := by
        have : ea.1 = a := by simpa using heaeq
        exact this ▸ hkey ea hea
      refine ⟨?_, ?_, ?_⟩
      · intro e' he'
        obtain ⟨e, he, rfl⟩ := List.mem_map.mp he'
        by_cases hek : e.1 = a
        · have hbeq : (e.1 == a) = true := by simpa using hek
          simp only [hbeq, if_true]
          have h1 : List.count e.1 [a] = 1 := by simp [hek]
          rw [List.count_append, h1, ih1 e he]
        · have hbeq : (e.1 == a) = false := by simpa using hek
          simp only [hbeq, Bool.false_eq_true, if_false]
          have hca : List.count e.1 [a] = 0 := by
            simp [List.count_singleton', hek]
          rw [List.count_append, hca, Nat.add_zero]
          exact ih1 e he
      · intro v
        have hfst : (List.map Prod.fst
            ((buildCounts l).map (fun e => if e.1 == a then (e.1, e.2 + 1) else e)))
            = List.map Prod.fst (buildCounts l) := by
          rw [List.map_map]
          apply List.map_congr_left
          intro e _
          by_cases hek : e.1 = a <;> simp [hek]
        rw [hfst]
        constructor
        · intro hv
          rcases List.mem_append.mp hv with hv | hv
          · exact (ih2 v).mp hv
          · simp only [List.mem_singleton] at hv
            subst hv
            exact (ih2 v).mp ha
        · intro hv
          exact List.mem_append.mpr (Or.inl ((ih2 v).mpr hv))
      · rw [List.pairwise_map]
        apply ih3.imp_of_mem
        intro x y hx hy hr
        have hx1 : (if x.1 == a then (x.1, x.2 + 1) else x).1 = x.1 := by
          by_cases hek : x.1 = a <;> simp [hek]
        have hy1 : (if y.1 == a then (y.1, y.2 + 1) else y).1 = y.1 := by
          by_cases hek : y.1 = a <;> simp [hek]
        rw [hx1, hy1, List.indexOf_append_of_mem (hkey x hx),
          List.indexOf_append_of_mem (hkey y hy)]
        exact hr
    · -- fresh key: appended at the end with count 1
      rw [if_neg hmem]
      have hnot : a ∉ l := by
        intro ha
        obtain ⟨e, he, hefst⟩ := List.mem_map.mp ((ih2 a).mp ha)
        exact hmem (List.any_eq_true.mpr ⟨e, he, by simp [hefst]⟩)
      refine ⟨?_, ?_, ?_⟩
      · intro e he
        rcases List.mem_append.mp he with he | he
        · have hek : e.1 ≠ a := fun hk => hnot (hk ▸ hkey e he)
          have hca : List.count e.1 [a] = 0 := by
            simp [List.count_singleton', hek]
          rw [List.count_append, hca, Nat.add_zero]
          exact ih1 e he
        · simp only [List.mem_singleton] at he
          subst he
          simp only [List.count_append]
          have h0 : List.count a l = 0 := List.count_eq_zero.mpr hnot
          simp [h0]
      · intro v
        rw [List.map_append]
        simp only [List.mem_append, List.mem_singleton, List.map_cons,
          List.map_nil]
        rw [ih2 v]
      · refine List.pairwise_append.mpr ⟨?_, List.pairwise_singleton _ _, ?_⟩
        · apply ih3.imp_of_mem
          intro x y hx hy hr
          rw [List.indexOf_append_of_mem (hkey x hx),
            List.indexOf_append_of_mem (hkey y hy)]
          exact hr
        · intro x hx y hy
          simp only [List.mem_singleton] at hy
          subst hy
          show List.indexOf x.1 (l ++ [a]) < List.indexOf a (l ++ [a])
          rw [List.indexOf_append_of_mem (hkey x hx),
            List.indexOf_append_of_not_mem hnot]
          have : List.indexOf x.1 l < l.length :=
            List.indexOf_lt_length.mpr (hkey x hx)
          omega

/-- The `max` scan splits its input into a strictly smaller part before the
returned item and a no-greater part after it. -/
lemma foldl_pickMax_split (es : List (String × ℕ)) :
    ∀ e : String × ℕ, ∃ l₁ l₂,
      e :: es = l₁ ++ (es.foldl pickMax e) :: l₂ ∧
        (∀ x ∈ l₁, x.2 < (es.foldl pickMax e).2) ∧
        (∀ x ∈ l₂, x.2 ≤ (es.foldl pickMax e).2) := by
  induction es with
  | nil =>
    intro e
    exact ⟨[], [], rfl, by simp, by simp⟩
  | cons x xs ih =>
    intro e
    have hfold : (x :: xs).foldl pickMax e = xs.foldl pickMax (pickMax e x) := rfl
    obtain ⟨m₁, m₂, heq, hm₁, hm₂⟩ := ih (pickMax e x)
    set r := xs.foldl pickMax (pickMax e x) with hr
    have hhead : (pickMax e x).2 ≤ r.2 := by
      have hmem : pickMax e x ∈ m₁ ++ r :: m₂ := heq ▸ List.mem_cons_self _ _
      rcases List.mem_append.mp hmem with h | h
      · exact Nat.le_of_lt (hm₁ _ h)
      · rcases List.mem_cons.mp h with h | h
        · rw [h]
        · exact hm₂ _ h
    rw [hfold]
    by_cases hx : x.2 > e.2
    · -- the head is immediately beaten: it joins the strictly smaller part
      have hpick : pickMax e x = x := by simp [pickMax, hx]
      rw [hpick] at heq hhead
      refine ⟨e :: m₁, m₂, ?_, ?_, hm₂⟩
      · simpa using congrArg (List.cons e) heq
      · intro y hy
        rcases List.mem_cons.mp hy with hy | hy
        · subst hy
          omega
        · exact hm₁ _ hy
    · have hpick : pickMax e x = e := by simp [pickMax, hx]
      rw [hpick] at heq hhead
      cases m₁ with
      | nil =>
        -- the kept head is the maximum itself; x falls in the tail part
        simp only [List.nil_append] at heq
        injection heq with hre hxs
        refine ⟨[], x :: m₂, ?_, by simp, ?_⟩
        · simp only [List.nil_append]
          rw [← hre, ← hxs]
        · intro y hy
          rcases List.mem_cons.mp hy with hy | hy
          · subst hy
            rw [← hre]
            omega
          · exact hm₂ _ hy
      | cons b m₁' =>
        have heq' := heq
        rw [List.cons_append, List.cons.injEq] at heq'
        obtain ⟨hbe, hxs⟩ := heq'
        refine ⟨e :: x :: m₁', m₂, ?_, ?_, hm₂⟩
        · simp [hxs]
        · have hbr : e.2 < r.2 := hbe ▸ hm₁ b (List.mem_cons_self _ _)
          intro y hy
          rcases List.mem_cons.mp hy with hy | hy
          · subst hy
            exact hbr
          · rcases List.mem_cons.mp hy with hy | hy
            · subst hy
              omega
            · exact hm₁ y (List.mem_cons.mpr (Or.inr hy))

/-- Applying `maxItem` to the dict of `vals` returns a first-encountered
mode. -/
lemma maxItem_firstMode (vals : List String) (v : String)
    (h : maxItem (buildCounts vals) = some v) : IsFirstMode vals v := by
  obtain ⟨hc, hk, hp⟩ := dictInv_buildCounts vals
  rcases hd : buildCounts vals with _ | ⟨e, es⟩
  · rw [hd] at h
    exact absurd h (by simp [maxItem])
  · rw [hd] at h hc hk hp
    obtain ⟨l₁, l₂, heq, hl₁, hl₂⟩ := foldl_pickMax_split es e
    set r := es.foldl pickMax e with hrdef
    have hv : r.1 = v := by
      simpa [maxItem] using h
    have hrmem : r ∈ e :: es := heq ▸ List.mem_append.mpr
      (Or.inr (List.mem_cons_self _ _))
    have hrcount : r.2 = vals.count v := hv ▸ hc r hrmem
    have hbound : ∀ x ∈ e :: es, x.2 ≤ r.2 := by
      intro x hx
      rw [heq] at hx
      rcases List.mem_append.mp hx with hx | hx
      · exact Nat.le_of_lt (hl₁ x hx)
      · rcases List.mem_cons.mp hx with hx | hx
        · rw [hx]
        · exact hl₂ x hx
    have hvmem : v ∈ vals :=
      (hk v).mpr (List.mem_map.mpr ⟨r, hrmem, hv⟩)
    have hentry : ∀ w ∈ vals, ∃ x ∈ e :: es, x.1 = w := by
      intro w hw
      obtain ⟨x, hx, hxw⟩ := List.mem_map.mp ((hk w).mp hw)
      exact ⟨x, hx, hxw⟩
    refine ⟨hvmem, ?_, ?_⟩
    · intro w hw
      obtain ⟨x, hx, hxw⟩ := hentry w hw
      calc vals.count w = x.2 := by rw [hc x hx, hxw]
        _ ≤ r.2 := hbound x hx
        _ = vals.count v := hrcount
    · intro w hw hweq
      obtain ⟨x, hx, hxw⟩ := hentry w hw
      have hx2 : x.2 = r.2 := by
        rw [hc x hx, hxw, hweq, ← hrcount]
      rw [heq] at hx
      rcases List.mem_append.mp hx with hx | hx
      · exact absurd hx2 (Nat.ne_of_lt (hl₁ x hx))
      · rcases List.mem_cons.mp hx with hx | hx
        · rw [hx, hv] at hxw
          rw [← hxw]
        · have hcross : vals.indexOf r.1 < vals.indexOf x.1 := by
            have hp' := heq ▸ hp
            obtain ⟨-, hp2, -⟩ := List.pairwise_append.mp hp'
            exact (List.pairwise_cons.mp hp2).1 x hx
          rw [hv, hxw] at hcross
          exact Nat.le_of_lt hcross

/-- A non-empty value list yields a non-empty dict, hence a `max`. -/
lemma maxItem_isSome (vals : List String) (hne : vals ≠ []) :
    ∃ v, maxItem (buildCounts vals) = some v := by
  obtain ⟨a, vals', rfl⟩ := List.exists_cons_of_ne_nil hne
  obtain ⟨-, hk, -⟩ := dictInv_buildCounts (a :: vals')
  rcases hd : buildCounts (a :: vals') with _ | ⟨e, es⟩
  · have := (hk a).mp (List.mem_cons_self a vals')
    rw [hd] at this
    simp at this
  · exact ⟨(es.foldl pickMax e).1, by simp [maxItem]⟩

/-- C6 counterexample to the claim as stated: on a document whose plays have
genres `["", "", "Rock"]` the aggregator reports top genre `"Rock"`, but the
arithmetic mode of the genre field over all play events is `""` (count 2
versus 1) — line 334's `if genre:` silently drops empty genres from the
genre tally. -/
theorem c6_counterexample :
    ∃ m,
      create_year_metadata_xml
          [{ artist := "A", title := "T", genre := "", playDuration := 30,
             playedAt := 0 },
           { artist := "A", title := "T", genre := "", playDuration := 30,
             playedAt := 1 },
           { artist := "A", title := "T", genre := "Rock", playDuration := 30,
             playedAt := 2 }] = some m ∧
        m.topGenre = "Rock" ∧
        ¬ IsFirstMode
            (([{ artist := "A", title := "T", genre := "", playDuration := 30,
                 playedAt := 0 },
               { artist := "A", title := "T", genre := "", playDuration := 30,
                 playedAt := 1 },
               { artist := "A", title := "T", genre := "Rock",
                 playDuration := 30, playedAt := 2 }] :
                List TrackPlayRec).map (fun p => p.genre))
            m.topGenre := by
  refine ⟨{ year := YEAR, totalPlays := 3, totalMinutes := 1,
            firstPlay := some 0, lastPlay := some 2, topArtist := "A",
            topTrack := "A - T", topGenre := "Rock" }, by decide, by decide,
          by decide⟩

/-- C6 as amended: for every document with at least one play, the top artist
and top track are first-encountered arithmetic modes of the artist field and
of the `"artist - title"` key, and the top genre is the first-encountered
arithmetic mode of the genre field restricted to the plays with a non-empty
genre (the empty string when every genre is empty). -/
theorem c6_top_fields (plays : List TrackPlayRec) (m : YearMetadata)
    (hm : create_year_metadata_xml plays = some m) :
    IsFirstMode (plays.map (fun p => p.artist)) m.topArtist ∧
      IsFirstMode (plays.map (fun p => p.artist ++ " - " ++ p.title))
        m.topTrack ∧
      ((plays.map (fun p => p.genre)).filter (fun g => !(g == "")) = [] →
        m.topGenre = "") ∧
      ((plays.map (fun p => p.genre)).filter (fun g => !(g == "")) ≠ [] →
        IsFirstMode
          ((plays.map (fun p => p.genre)).filter (fun g => !(g == "")))
          m.topGenre) := by
  unfold create_year_metadata_xml at hm
  split at hm
  · exact absurd hm (by simp)
  · rename_i hlen
    have hne : plays ≠ [] := fun h => hlen (by simp [h])
    cases Option.some.inj hm
    refine ⟨?_, ?_, ?_, ?_⟩
    · have hvals : plays.map (fun p => p.artist) ≠ [] := by
        simpa [List.map_eq_nil_iff] using hne
      obtain ⟨v, hv⟩ := maxItem_isSome _ hvals
      show IsFirstMode _ ((maxItem (artistCounts plays)).getD "")
      rw [artistCounts, hv, Option.getD_some]
      exact maxItem_firstMode _ v hv
    · have hvals : plays.map (fun p => p.artist ++ " - " ++ p.title) ≠ [] := by
        simpa [List.map_eq_nil_iff] using hne
      obtain ⟨v, hv⟩ := maxItem_isSome _ hvals
      show IsFirstMode _ ((maxItem (trackCounts plays)).getD "")
      rw [trackCounts, hv, Option.getD_some]
      exact maxItem_firstMode _ v hv
    · intro hempty
      show (maxItem (genreCounts plays)).getD "" = ""
      rw [genreCounts, hempty]
      rfl
    · intro hnonempty
      obtain ⟨v, hv⟩ := maxItem_isSome _ hnonempty
      show IsFirstMode _ ((maxItem (genreCounts plays)).getD "")
      rw [genreCounts, hv, Option.getD_some]
      exact maxItem_firstMode _ v hv

/-- Witness for the amended C6 at a one-play document. -/
theorem c6_witness :
    IsFirstMode
        ([({ artist := "A", title := "T", genre := "G", playDuration := 30,
             playedAt := 5 } : TrackPlayRec)].map (fun p => p.artist)) "A" ∧
      IsFirstMode
        ([({ artist := "A", title := "T", genre := "G", playDuration := 30,
             playedAt := 5 } : TrackPlayRec)].map
          (fun p => p.artist ++ " - " ++ p.title)) "A - T" ∧
      (([({ artist := "A", title := "T", genre := "G", playDuration := 30,
            playedAt := 5 } : TrackPlayRec)].map (fun p => p.genre)).filter
          (fun g => !(g == "")) = [] → ("G" : String) = "") ∧
      (([({ artist := "A", title := "T", genre := "G", playDuration := 30,
            playedAt := 5 } : TrackPlayRec)].map (fun p => p.genre)).filter
          (fun g => !(g == "")) ≠ [] →
        IsFirstMode
          (([({ artist := "A", title := "T", genre := "G", playDuration := 30,
                playedAt := 5 } : TrackPlayRec)].map (fun p => p.genre)).filter
            (fun g => !(g == ""))) "G") :=
  c6_top_fields
    [{ artist := "A", title := "T", genre := "G", playDuration := 30,
       playedAt := 5 }]
    { year := YEAR, totalPlays := 1, totalMinutes := 0, firstPlay := some 5,
      lastPlay := some 5, topArtist := "A", topTrack := "A - T",
      topGenre := "G" }
    (by decide)


end MusicBeeWrapped
